import Mathlib

/-!
Verification of the Personal-Expenses-Cube category-classification component.

The repository ships a single data artifact: a Python dict literal
`transaction_subtype_mapping` in `01 Scripts/transaction_subtype_mapping.py`
mapping bank-transaction description substrings to category labels.  The
specification describes a `CategoryResolver` built around that table.  The
table below is embedded verbatim from the source (in definition order,
duplicates included); the resolver operations, which the repository does not
ship, are modelled from the specification.
-/

namespace Cube

/-- Checks whether the first character list leads (is an initial segment of)
the second; character comparison is exact, so matching is case-sensitive and
diacritic-sensitive. -/
def leadsWith : List Char → List Char → Bool
  | [], _ => true
  | _ :: _, [] => false
  | a :: p, b :: s => a == b && leadsWith p s

/-- Checks whether the first character list occurs contiguously inside the
second. -/
def occursIn (p : List Char) : List Char → Bool
  | [] => p.isEmpty
  | c :: s => leadsWith p (c :: s) || occursIn p s

/-- Substring containment on strings: `isSubstr pat s` holds when `pat`
occurs as a contiguous substring of `s`. -/
def isSubstr (pat s : String) : Bool := occursIn pat.data s.data

/-- Modelled from the spec: the tagged result type of resolution,
`Matched(category)` or `Unclassified`. -/
inductive ClassificationResult where
  | Matched (category : String)
  | Unclassified
deriving DecidableEq

/-- The raw pattern/category pairs exactly as written in the source file
`01 Scripts/transaction_subtype_mapping.py`, in definition order, including
the duplicated `"Nomina"` entry.  The tenth pattern carries the source's
mis-encoded characters (U+00C3 U+201C) verbatim. -/
def rawTable : List (String × String) := [
  ("COMPENSACION POR RETRASO", "Compensation Credit"),
  ("RETIRO CAJERO AUTOMATICO", "Cash Withdrawal"),
  ("GRACIAS POR SU PAGO CON CARGO A BBVA", "Credit Card Payment"),
  ("AMERICAN EXPRESS    01234", "Credit Card Payment"),
  ("PAGO TARJETA DE CREDITO", "Credit Card Payment"),
  ("(BE) Pago servicio: TARJETA DE CREDITO B", "Credit Card Payment"),
  ("Pago servicio: TARJETA DE CREDITO", "Credit Card Payment"),
  ("SPEI ENVIADO NAFIN", "Investment"),
  ("SPEI ENVIADO GBM", "Investment"),
  ("Apertura de INVERSIÃ“N HEY", "Investment"),
  ("YOUR NAME. HeyAhorra", "Investment"),
  ("Recepcion de cuenta", "Investment"),
  ("Gastos Medicos", "Medical Reimbursement"),
  ("Nomina", "Payroll"),
  ("Pagodenomina", "Payroll"),
  ("Nomina", "Payroll"),
  ("SPEI RECIBIDO", "3rd Party Transfer"),
  ("PAGO CUENTA DE TERCERO", "3rd Party Transfer"),
  ("SPEI RECIBIDOBANORTE", "3rd Party Transfer"),
  ("SPEI DEVUELTOSTP", "Canceled Transfer"),
  ("SPEI DEVUELTONAFIN", "Canceled Transfer"),
  ("Reembolso Viaticos", "Work Expenses Reimbursement"),
  ("MONTO A DIFERIR MESES EN AUTOMATICO", "Deferred Payment"),
  ("MESES EN AUTOMATICO NACIONAL", "Monthly Payment"),
  ("SPEI.BBVA MEXICO.012345.YOUR NAME", "Intra account transfers")]

/-- Inserting one binding with Python-dict semantics: an existing key keeps
its position and receives the new value, a fresh key is appended. -/
def dictInsert (m : List (String × String)) (k v : String) : List (String × String) :=
  if m.any (fun p => p.1 == k) then
    m.map (fun p => if p.1 == k then (k, v) else p)
  else m ++ [(k, v)]

/-- Building a keyed table from literal pairs left to right, as a Python dict
literal does: duplicate keys collapse to the last-defined value. -/
def dictOfPairs (ps : List (String × String)) : List (String × String) :=
  ps.foldl (fun m p => dictInsert m p.1 p.2) []

/-- The bundled table: the source dict literal after Python's duplicate-key
collapse. -/
def bundledTable : List (String × String) := dictOfPairs rawTable

/-- Modelled from the spec: the entries of the table whose pattern occurs as
a substring of the description, in table order. -/
def matchingEntries (t : List (String × String)) (d : String) : List (String × String) :=
  t.filter (fun e => isSubstr e.1 d)

/-- Modelled from the spec: the tie-break over a list of matching entries —
prefer the longest pattern, and on equal lengths prefer the entry appearing
earliest in the list. -/
def pickBest : List (String × String) → Option (String × String)
  | [] => none
  | e :: rest =>
    match pickBest rest with
    | none => some e
    | some b => if e.1.length < b.1.length then some b else some e

/-- Modelled from the spec: `resolve` scans the table for patterns occurring
as substrings of the description, returns `Unclassified` when none matches,
and otherwise the category of the tie-break winner. -/
def resolve (t : List (String × String)) (d : String) : ClassificationResult :=
  match pickBest (matchingEntries t d) with
  | some e => .Matched e.2
  | none => .Unclassified

/-- Modelled from the spec: `resolveAll` independently resolves each element
of a sequence of descriptions, preserving order. -/
def resolveAll (t : List (String × String)) (ds : List String) : List ClassificationResult :=
  ds.map (resolve t)

/-- Checks whether a string is empty or consists only of whitespace. -/
def isBlank (s : String) : Bool := s.data.all Char.isWhitespace

/-- Modelled from the spec: the construction-time error taxonomy of
`CategoryResolver.load`. -/
inductive InvalidTableError where
  | emptyTable
  | blankPattern
  | blankCategory
deriving DecidableEq

/-- Modelled from the spec: `CategoryResolver.load` rejects an empty table,
a blank pattern and a blank category with `InvalidTableError`, and otherwise
builds the collapsed table. -/
def load (ps : List (String × String)) : Except InvalidTableError (List (String × String)) :=
  if ps.isEmpty then .error .emptyTable
  else if ps.any (fun p => isBlank p.1) then .error .blankPattern
  else if ps.any (fun p => isBlank p.2) then .error .blankCategory
  else .ok (dictOfPairs ps)

/-- Whether construction fails. -/
def loadFails (ps : List (String × String)) : Bool :=
  match load ps with
  | .error _ => true
  | .ok _ => false

/-- Value lookup in a keyed table: the value of the first entry carrying the
key. -/
def lookupVal (m : List (String × String)) (k : String) : Option String :=
  (m.find? (fun p => p.1 == k)).map Prod.snd

/-- The value of the last pair of the list carrying the given key, the
reference meaning of last-write-wins. -/
def lastValue : List (String × String) → String → Option String
  | [], _ => none
  | p :: ps, k =>
    match lastValue ps k with
    | some v => some v
    | none => if p.1 == k then some p.2 else none

/-- Modelled from the spec: an external transaction record; the resolver
only reads its description. -/
structure TransactionRecord where
  description : String
deriving DecidableEq

/-- Modelled from the spec: one resolution call on a record, with the table
and the record threaded explicitly so that freedom from side effects is a
statement about the returned state. -/
def resolveRecord (t : List (String × String)) (r : TransactionRecord) :
    ClassificationResult × List (String × String) × TransactionRecord :=
  (resolve t r.description, t, r)

end Cube

namespace Cube

theorem eq_nil_of_pickBest_eq_none :
    ∀ {l : List (String × String)}, pickBest l = none → l = []
  | [], _ => rfl
  | e :: rest, h => by
    simp only [pickBest] at h
    split at h
    · exact Option.noConfusion h
    · split at h <;> exact Option.noConfusion h

theorem pickBest_split :
    ∀ (l : List (String × String)) (e : String × String), pickBest l = some e →
    ∃ l₁ l₂, l = l₁ ++ e :: l₂ ∧ (∀ b ∈ l, b.1.length ≤ e.1.length) ∧
      ∀ b ∈ l₁, b.1.length < e.1.length
  | [], e, h => by exact Option.noConfusion h
  | a :: rest, e, h => by
    simp only [pickBest] at h
    split at h
    · rename_i hpb
      obtain rfl : a = e := Option.some.inj h
      have hrest : rest = [] := eq_nil_of_pickBest_eq_none hpb
      subst hrest
      exact ⟨[], [], rfl, by simp, by simp⟩
    · rename_i b hpb
      obtain ⟨l₁, l₂, hsplit, hmax, hlt⟩ := pickBest_split rest b hpb
      by_cases hc : a.1.length < b.1.length
      · rw [if_pos hc] at h
        obtain rfl : b = e := Option.some.inj h
        refine ⟨a :: l₁, l₂, by simp [hsplit], ?_, ?_⟩
        · intro x hx
          rcases List.mem_cons.mp hx with rfl | hx
          · exact Nat.le_of_lt hc
          · exact hmax x hx
        · intro x hx
          rcases List.mem_cons.mp hx with rfl | hx
          · exact hc
          · exact hlt x hx
      · rw [if_neg hc] at h
        obtain rfl : a = e := Option.some.inj h
        refine ⟨[], rest, rfl, ?_, by simp⟩
        intro x hx
        rcases List.mem_cons.mp hx with rfl | hx
        · exact Nat.le_refl _
        · exact Nat.le_trans (hmax x hx) (Nat.le_of_not_lt hc)

theorem takeWhile_of_ne (e : String × String) :
    ∀ (l₁ l₂ : List (String × String)), (∀ b ∈ l₁, b ≠ e) →
    (l₁ ++ e :: l₂).takeWhile (fun x => decide (x ≠ e)) = l₁
  | [], l₂, _ => by simp [List.takeWhile_cons]
  | a :: l₁, l₂, h => by
    have ha : a ≠ e := h a (List.mem_cons_self a l₁)
    simp only [List.cons_append, List.takeWhile_cons, decide_eq_true ha, if_pos]
    rw [takeWhile_of_ne e l₁ l₂ (fun b hb => h b (List.mem_cons_of_mem a hb))]

end Cube

namespace Cube

/-- C1: for every non-empty description that exactly one table entry's
pattern occurs in as a substring, `resolve` returns `Matched` with that
entry's category. -/
theorem resolve_unique_match (t : List (String × String)) (d : String)
    (e : String × String) (hd : d ≠ "") (h : matchingEntries t d = [e]) :
    resolve t d = .Matched e.2 := by
  simp [resolve, h, pickBest]

/-- Witness for C1: the description "RETIRO CAJERO AUTOMATICO 123" matches
exactly the cash-withdrawal entry of the bundled table. -/
theorem resolve_unique_match_wit :
    resolve bundledTable "RETIRO CAJERO AUTOMATICO 123" = .Matched "Cash Withdrawal" :=
  resolve_unique_match bundledTable "RETIRO CAJERO AUTOMATICO 123"
    ("RETIRO CAJERO AUTOMATICO", "Cash Withdrawal") (by decide) (by decide)

/-- C2: when the tie-break selects entry `e`, `resolve` returns `e`'s
category, `e` is a matching entry of maximal pattern length, and every
matching entry listed before `e` has a strictly shorter pattern; concretely,
"SPEI RECIBIDOBANORTE 123" is matched by two bundled patterns and resolves
through the longer one, "SPEI RECIBIDOBANORTE", to 3rd Party Transfer. -/
theorem resolve_tiebreak (t : List (String × String)) (d : String)
    (e : String × String) (h : pickBest (matchingEntries t d) = some e) :
    resolve t d = .Matched e.2 ∧
    e ∈ matchingEntries t d ∧
    (∀ b ∈ matchingEntries t d, b.1.length ≤ e.1.length) ∧
    (∀ b ∈ (matchingEntries t d).takeWhile (fun x => decide (x ≠ e)), b.1.length < e.1.length) ∧
    matchingEntries bundledTable "SPEI RECIBIDOBANORTE 123" =
      [("SPEI RECIBIDO", "3rd Party Transfer"), ("SPEI RECIBIDOBANORTE", "3rd Party Transfer")] ∧
    pickBest (matchingEntries bundledTable "SPEI RECIBIDOBANORTE 123") =
      some ("SPEI RECIBIDOBANORTE", "3rd Party Transfer") ∧
    resolve bundledTable "SPEI RECIBIDOBANORTE 123" = .Matched "3rd Party Transfer" := by
  obtain ⟨l₁, l₂, hsplit, hmax, hlt⟩ := pickBest_split (matchingEntries t d) e h
  refine ⟨by simp [resolve, h], ?_, hmax, ?_, by decide, by decide, by decide⟩
  · rw [hsplit]; exact List.mem_append_right l₁ (List.mem_cons_self e l₂)
  · intro b hb
    have hne : ∀ x ∈ l₁, x ≠ e := by
      intro x hx hxe
      exact absurd (hlt x hx) (by rw [hxe]; exact Nat.lt_irrefl _)
    rw [hsplit, takeWhile_of_ne e l₁ l₂ hne] at hb
    exact hlt b hb

/-- Witness for C2 at the bundled table and the overlapping SPEI example. -/
theorem resolve_tiebreak_wit :
    resolve bundledTable "SPEI RECIBIDOBANORTE 123" = .Matched "3rd Party Transfer" :=
  (resolve_tiebreak bundledTable "SPEI RECIBIDOBANORTE 123"
    ("SPEI RECIBIDOBANORTE", "3rd Party Transfer") (by decide)).1

/-- C3: a description in which no table pattern occurs resolves to
`Unclassified`; in particular the empty description resolves to
`Unclassified` against the bundled table. -/
theorem resolve_no_match (t : List (String × String)) (d : String)
    (h : ∀ e ∈ t, isSubstr e.1 d = false) :
    resolve t d = .Unclassified ∧ resolve bundledTable "" = .Unclassified := by
  refine ⟨?_, by decide⟩
  have hnil : matchingEntries t d = [] := by
    simp only [matchingEntries, List.filter_eq_nil_iff]
    intro e he
    simp [h e he]
  simp [resolve, hnil, pickBest]

/-- Witness for C3: a description matching no bundled pattern is
unclassified. -/
theorem resolve_no_match_wit :
    resolve bundledTable "COMPRA OXXO TIENDA" = .Unclassified :=
  (resolve_no_match bundledTable "COMPRA OXXO TIENDA" (by decide)).1

end Cube

namespace Cube

/-- C4: construction fails with `InvalidTableError` exactly when the
supplied table is empty or some pattern or category label is blank
(empty or whitespace-only); resolution itself is total and never raises. -/
theorem load_fails_iff (ps : List (String × String)) :
    (loadFails ps = true ↔
      ps = [] ∨ ∃ p ∈ ps, isBlank p.1 = true ∨ isBlank p.2 = true) ∧
    (∀ (t : List (String × String)) (d : String),
      resolve t d = .Unclassified ∨ ∃ c, resolve t d = .Matched c) := by
  constructor
  · unfold loadFails load
    by_cases h1 : ps.isEmpty
    · rw [if_pos h1]
      simp [List.isEmpty_iff.mp h1]
    · rw [if_neg h1]
      by_cases h2 : ps.any (fun p => isBlank p.1)
      · rw [if_pos h2]
        obtain ⟨p, hp, hb⟩ := List.any_eq_true.mp h2
        simp only [true_iff]
        exact Or.inr ⟨p, hp, Or.inl hb⟩
      · rw [if_neg h2]
        by_cases h3 : ps.any (fun p => isBlank p.2)
        · rw [if_pos h3]
          obtain ⟨p, hp, hb⟩ := List.any_eq_true.mp h3
          simp only [true_iff]
          exact Or.inr ⟨p, hp, Or.inr hb⟩
        · rw [if_neg h3]
          refine iff_of_false (by simp) ?_
          rintro (rfl | ⟨p, hp, hb | hb⟩)
          · exact h1 rfl
          · exact h2 (List.any_eq_true.mpr ⟨p, hp, hb⟩)
          · exact h3 (List.any_eq_true.mpr ⟨p, hp, hb⟩)
  · intro t d
    unfold resolve
    cases pickBest (matchingEntries t d)
    · exact Or.inl rfl
    · exact Or.inr ⟨_, rfl⟩

/-- Witness for C4: a table whose only pattern is whitespace is rejected. -/
theorem load_fails_iff_wit : loadFails [("  ", "Payroll")] = true :=
  (load_fails_iff [("  ", "Payroll")]).1.mpr
    (Or.inr ⟨("  ", "Payroll"), by decide, Or.inl (by decide)⟩)

end Cube

namespace Cube

theorem find?_map_update (k v : String) :
    ∀ (m : List (String × String)), m.any (fun p => p.1 == k) = true →
    (m.map (fun p => if p.1 == k then (k, v) else p)).find? (fun p => p.1 == k) = some (k, v)
  | [], h => by simp at h
  | p :: m, h => by
    by_cases hp : (p.1 == k) = true
    · simp only [List.map_cons, if_pos hp]
      exact List.find?_cons_of_pos _ (by simp)
    · simp only [List.map_cons, if_neg hp]
      rw [List.find?_cons_of_neg _ (by simp [hp])]
      have h' : m.any (fun p => p.1 == k) = true := by
        rcases List.any_eq_true.mp h with ⟨q, hq, hqk⟩
        rcases List.mem_cons.mp hq with rfl | hq
        · exact absurd hqk hp
        · exact List.any_eq_true.mpr ⟨q, hq, hqk⟩
      exact find?_map_update k v m h'

theorem find?_map_untouched (k k' v : String) (hne : (k' == k) = false) :
    ∀ (m : List (String × String)),
    (m.map (fun p => if p.1 == k' then (k', v) else p)).find? (fun p => p.1 == k) =
      m.find? (fun p => p.1 == k)
  | [] => rfl
  | p :: m => by
    by_cases hp : (p.1 == k') = true
    · have hpk : (p.1 == k) = false := by
        rw [show p.1 = k' from eq_of_beq hp]
        exact hne
      simp only [List.map_cons, if_pos hp]
      rw [List.find?_cons_of_neg _ (by simp [hne]),
        List.find?_cons_of_neg _ (by simp [hpk])]
      exact find?_map_untouched k k' v hne m
    · simp only [List.map_cons, if_neg hp]
      by_cases hpk : (p.1 == k) = true
      · rw [List.find?_cons_of_pos _ (by simp [hpk]), List.find?_cons_of_pos _ (by simp [hpk])]
      · rw [List.find?_cons_of_neg _ (by simp [hpk]), List.find?_cons_of_neg _ (by simp [hpk])]
        exact find?_map_untouched k k' v hne m

theorem lookupVal_dictInsert_self (m : List (String × String)) (k v : String) :
    lookupVal (dictInsert m k v) k = some v := by
  unfold dictInsert lookupVal
  by_cases h : m.any (fun p => p.1 == k) = true
  · rw [if_pos h, find?_map_update k v m h]
    rfl
  · rw [if_neg h, List.find?_append]
    have hnone : m.find? (fun p => p.1 == k) = none := by
      rw [List.find?_eq_none]
      intro p hp hpk
      exact h (List.any_eq_true.mpr ⟨p, hp, hpk⟩)
    rw [hnone]
    simp

theorem lookupVal_dictInsert_of_ne (m : List (String × String)) (k k' v : String)
    (hne : (k' == k) = false) :
    lookupVal (dictInsert m k' v) k = lookupVal m k := by
  unfold dictInsert lookupVal
  by_cases h : m.any (fun p => p.1 == k') = true
  · rw [if_pos h, find?_map_untouched k k' v hne m]
  · rw [if_neg h, List.find?_append]
    have hsingle : List.find? (fun p => p.1 == k) [(k', v)] = none := by
      simp [hne]
    rw [hsingle]
    cases m.find? (fun p => p.1 == k) <;> rfl

theorem lookupVal_foldl :
    ∀ (ps : List (String × String)) (m : List (String × String)) (k : String),
    lookupVal (ps.foldl (fun m p => dictInsert m p.1 p.2) m) k =
      match lastValue ps k with
      | some v => some v
      | none => lookupVal m k
  | [], m, k => by simp [lastValue]
  | p :: ps, m, k => by
    simp only [List.foldl_cons, lastValue]
    rw [lookupVal_foldl ps (dictInsert m p.1 p.2) k]
    cases hl : lastValue ps k with
    | some v => rfl
    | none =>
      by_cases hp : (p.1 == k) = true
      · rw [if_pos hp, show p.1 = k from eq_of_beq hp] at *
        exact lookupVal_dictInsert_self m k p.2
      · rw [if_neg hp]
        exact lookupVal_dictInsert_of_ne m k p.1 p.2 (by simpa using hp)

theorem lookupVal_dictOfPairs (ps : List (String × String)) (k : String) :
    lookupVal (dictOfPairs ps) k = lastValue ps k := by
  unfold dictOfPairs
  rw [lookupVal_foldl]
  cases h : lastValue ps k
  · simp [lookupVal]
  · rfl

theorem keys_dictInsert (m : List (String × String)) (k v : String) :
    (dictInsert m k v).map Prod.fst =
      if m.any (fun p => p.1 == k) = true then m.map Prod.fst
      else m.map Prod.fst ++ [k] := by
  unfold dictInsert
  by_cases h : m.any (fun p => p.1 == k) = true
  · rw [if_pos h, if_pos h, List.map_map]
    apply List.map_congr_left
    intro p hp
    by_cases hpk : p.1 = k
    · simp [hpk]
    · simp [hpk]
  · rw [if_neg h, if_neg h]
    simp

theorem nodup_keys_foldl :
    ∀ (ps : List (String × String)) (m : List (String × String)),
    (m.map Prod.fst).Nodup →
    ((ps.foldl (fun m p => dictInsert m p.1 p.2) m).map Prod.fst).Nodup
  | [], _, h => h
  | p :: ps, m, h => by
    simp only [List.foldl_cons]
    apply nodup_keys_foldl ps
    rw [keys_dictInsert]
    by_cases hc : m.any (fun q => q.1 == p.1) = true
    · rw [if_pos hc]; exact h
    · rw [if_neg hc]
      have hnotin : p.1 ∉ m.map Prod.fst := by
        intro hmem
        obtain ⟨q, hq, hq1⟩ := List.mem_map.mp hmem
        exact hc (List.any_eq_true.mpr ⟨q, hq, by simp [hq1]⟩)
      exact h.append (List.nodup_singleton _)
        (fun a ha hb => hnotin (by rwa [show a = p.1 from by simpa using hb] at ha))

end Cube

namespace Cube

/-- C5: the loader's duplicate-key policy is last-write-wins — looking any
key up in the constructed table yields the value of its last definition —
and the constructed table's patterns are pairwise distinct; in the bundled
data "Nomina" is defined twice and the constructed table carries exactly one
"Nomina" entry, mapping to "Payroll". -/
theorem dict_last_write_wins :
    (∀ ps : List (String × String), ((dictOfPairs ps).map Prod.fst).Nodup) ∧
    (∀ (ps : List (String × String)) (k : String),
      lookupVal (dictOfPairs ps) k = lastValue ps k) ∧
    (rawTable.filter (fun p => p.1 == "Nomina")).length = 2 ∧
    ("Nomina", "Payroll") ∈ bundledTable ∧
    (bundledTable.map Prod.fst).count "Nomina" = 1 ∧
    lookupVal bundledTable "Nomina" = some "Payroll" :=
  ⟨fun ps => nodup_keys_foldl ps [] (by simp),
   lookupVal_dictOfPairs,
   by decide, by decide, by decide, by decide⟩

/-- Witness for C5 at the bundled data: the collapsed value of "Nomina" is
the last-defined one. -/
theorem dict_last_write_wins_wit :
    lookupVal (dictOfPairs rawTable) "Nomina" = lastValue rawTable "Nomina" :=
  dict_last_write_wins.2.1 rawTable "Nomina"

/-- C6: `resolveAll` yields a sequence of the same length as its input and
its i-th element is `resolve` of the i-th input description. -/
theorem resolveAll_pointwise (t : List (String × String)) (ds : List String) :
    (resolveAll t ds).length = ds.length ∧
    ∀ i : Nat, (resolveAll t ds)[i]? = (ds[i]?).map (resolve t) := by
  constructor
  · simp [resolveAll]
  · intro i
    simp [resolveAll]

/-- Witness for C6 on a two-element batch against the bundled table. -/
theorem resolveAll_pointwise_wit :
    (resolveAll bundledTable ["Nomina enero", "COMPRA OXXO"])[0]? =
      ((["Nomina enero", "COMPRA OXXO"] : List String)[0]?).map (resolve bundledTable) :=
  (resolveAll_pointwise bundledTable ["Nomina enero", "COMPRA OXXO"]).2 0

/-- C7: resolution is deterministic and side-effect-free — a call returns
the table and the record unchanged, a second call on the returned state
yields the same result, and `resolve` on equal inputs is equal. -/
theorem resolve_pure (t : List (String × String)) (r : TransactionRecord) :
    (resolveRecord t r).2.1 = t ∧
    (resolveRecord t r).2.2 = r ∧
    (resolveRecord (resolveRecord t r).2.1 (resolveRecord t r).2.2).1 =
      (resolveRecord t r).1 ∧
    resolve t r.description = resolve t r.description :=
  ⟨rfl, rfl, rfl, rfl⟩

/-- Witness for C7 at a concrete record. -/
theorem resolve_pure_wit :
    (resolveRecord bundledTable (TransactionRecord.mk "Nomina enero")).2.1 = bundledTable :=
  (resolve_pure bundledTable (TransactionRecord.mk "Nomina enero")).1

/-- C8: against the bundled table, "PAGO TARJETA DE CREDITO BBVA" is matched
by exactly one entry, the pattern "PAGO TARJETA DE CREDITO", and resolves to
Matched "Credit Card Payment". -/
theorem resolve_credit_card_example :
    resolve bundledTable "PAGO TARJETA DE CREDITO BBVA" = .Matched "Credit Card Payment" ∧
    matchingEntries bundledTable "PAGO TARJETA DE CREDITO BBVA" =
      [("PAGO TARJETA DE CREDITO", "Credit Card Payment")] :=
  ⟨by decide, by decide⟩

/-- C9: within the bundled table any two entries whose patterns are nested
as substrings carry the same category — in particular the two nested pairs
named by the claim — so among nested matches of any description the
tie-break cannot change the returned category. -/
theorem nested_patterns_same_category :
    (∀ e₁ ∈ bundledTable, ∀ e₂ ∈ bundledTable, isSubstr e₁.1 e₂.1 = true → e₁.2 = e₂.2) ∧
    (∀ (d : String), ∀ e ∈ matchingEntries bundledTable d,
      ∀ b ∈ matchingEntries bundledTable d, isSubstr e.1 b.1 = true → e.2 = b.2) ∧
    isSubstr "SPEI RECIBIDO" "SPEI RECIBIDOBANORTE" = true ∧
    isSubstr "Pago servicio: TARJETA DE CREDITO" "(BE) Pago servicio: TARJETA DE CREDITO B" = true ∧
    ("SPEI RECIBIDO", "3rd Party Transfer") ∈ bundledTable ∧
    ("SPEI RECIBIDOBANORTE", "3rd Party Transfer") ∈ bundledTable ∧
    ("Pago servicio: TARJETA DE CREDITO", "Credit Card Payment") ∈ bundledTable ∧
    ("(BE) Pago servicio: TARJETA DE CREDITO B", "Credit Card Payment") ∈ bundledTable := by
  have hpair : ∀ e₁ ∈ bundledTable, ∀ e₂ ∈ bundledTable,
      isSubstr e₁.1 e₂.1 = true → e₁.2 = e₂.2 := by decide
  refine ⟨hpair, ?_, by decide, by decide, by decide, by decide, by decide, by decide⟩
  intro d e he b hb hs
  simp only [matchingEntries] at he hb
  exact hpair e (List.mem_of_mem_filter he) b (List.mem_of_mem_filter hb) hs

/-- Witness for C9 at the nested SPEI pair. -/
theorem nested_patterns_same_category_wit :
    ("SPEI RECIBIDO", "3rd Party Transfer").2 =
      ("SPEI RECIBIDOBANORTE", "3rd Party Transfer").2 :=
  nested_patterns_same_category.1 ("SPEI RECIBIDO", "3rd Party Transfer") (by decide)
    ("SPEI RECIBIDOBANORTE", "3rd Party Transfer") (by decide) (by decide)

/-- C10: the bundled raw table is non-empty and each of its entries has a
non-blank pattern and a non-blank category, so loading it succeeds and the
`InvalidTableError` branches are not taken. -/
theorem bundled_table_loads :
    rawTable ≠ [] ∧
    (∀ p ∈ rawTable, isBlank p.1 = false ∧ isBlank p.2 = false) ∧
    load rawTable = .ok bundledTable ∧
    loadFails rawTable = false :=
  ⟨by decide, by decide, rfl, by decide⟩

/-- Witness for C10 at the first raw entry. -/
theorem bundled_table_loads_wit :
    isBlank "COMPENSACION POR RETRASO" = false ∧ isBlank "Compensation Credit" = false :=
  bundled_table_loads.2.1 ("COMPENSACION POR RETRASO", "Compensation Credit") (by decide)

end Cube
